import Mathlib

/-!
# Verification of the watermark-logo batch compositor

A shallow embedding, in Lean 4, of the image-geometry and batch-control logic of
`watermark_app.py` (repository `arubasak/watermark-logo`), together with proofs
of the behavioural properties stated in the repository's specification.

The embedding conventions:

* Python `int` arithmetic is modelled with `ℤ`; image dimensions are `ℕ` where
  the source guarantees non-negativity (PIL sizes).
* Python floats that only ever hold slider fractions (the logo scale) are
  modelled with `ℚ`; `int(x)` is truncation toward zero, `round(x)` is rounding.
* Python `//` and `%` on integers floor-divide; for the positive divisors used
  by the source they agree with Lean's `Int.ediv` / `Int.emod`, which we use.
* Python strings are modelled as `List Char`; `str.lower` only needs its ASCII
  behaviour for the extensions and markers the source compares against.
-/

namespace WatermarkApp

/-! ## Python numeric primitives -/

/-- Python `int()` applied to a rational value: truncation toward zero.
`Int.tdiv` truncates, and a `Rat`'s denominator is positive, so truncating the
fraction `num/den` is exactly `num.tdiv den`. -/
def pyInt (q : ℚ) : ℤ := q.num.tdiv q.den

/-- The product `(a : ℚ) * q`, computed on the raw numerator so that it reduces
in the kernel (`intMulRat_cast` below proves it equal to the `ℚ` product). -/
def intMulRat (a : ℤ) (q : ℚ) : ℚ := mkRat (a * q.num) q.den

/-! ## Logo placement — `watermark_app.py` lines 307–321

```
target_width = max(1, int(product_img.width * logo_scale))
aspect_ratio = logo_base.height / logo_base.width if logo_base.width > 0 else 1
target_height = max(1, int(target_width * aspect_ratio))
x_logo = product_img.width - logo_resized.width - padding
y_logo = product_img.height - logo_resized.height - padding
```
(`logo_resized` has exactly the size `(target_width, target_height)`.) -/

/-- `aspect_ratio = logo_base.height / logo_base.width if logo_base.width > 0 else 1`. -/
def aspectRatio (logoW logoH : ℕ) : ℚ := if 0 < logoW then mkRat logoH logoW else 1

/-- Result of the logo-placement computation: target size and paste origin. -/
structure Placement where
  targetWidth : ℤ
  targetHeight : ℤ
  x : ℤ
  y : ℤ
deriving DecidableEq

/-- The source's logo placement, lines 307–321 of `watermark_app.py`. -/
def logoPlacement (prodW prodH logoW logoH : ℕ) (logoScale : ℚ) (padding : ℤ) :
    Placement :=
  let targetWidth : ℤ := max 1 (pyInt (intMulRat prodW logoScale))
  let targetHeight : ℤ := max 1 (pyInt (intMulRat targetWidth (aspectRatio logoW logoH)))
  { targetWidth := targetWidth
    targetHeight := targetHeight
    x := (prodW : ℤ) - targetWidth - padding
    y := (prodH : ℤ) - targetHeight - padding }

/-- The placement as the specification sentence words it, with `round` in place
of the source's truncating `int()`; kept only to compare against
`logoPlacement`. -/
def claimLogoPlacement (prodW prodH logoW logoH : ℕ) (logoScale : ℚ) (padding : ℤ) :
    Placement :=
  let targetWidth : ℤ := max 1 (round ((prodW : ℚ) * logoScale))
  let targetHeight : ℤ :=
    max 1 (round ((targetWidth : ℚ) * (if 0 < logoW then (logoH : ℚ) / logoW else 1)))
  { targetWidth := targetWidth
    targetHeight := targetHeight
    x := (prodW : ℤ) - targetWidth - padding
    y := (prodH : ℤ) - targetHeight - padding }

/-! ## Bridging lemmas for the numeric primitives -/

theorem intMulRat_cast (a : ℤ) (q : ℚ) : (intMulRat a q : ℚ) = (a : ℚ) * q := by
  rw [intMulRat, Rat.mkRat_eq_divInt, Rat.divInt_eq_div]
  push_cast
  rw [mul_div_assoc, Rat.num_div_den]

theorem pyInt_eq_floor {q : ℚ} (h : 0 ≤ q) : pyInt q = ⌊q⌋ := by
  rw [pyInt, Int.tdiv_eq_ediv (Rat.num_nonneg.mpr h) (Int.ofNat_nonneg q.den),
    Rat.floor_def]

theorem aspectRatio_cast (logoW logoH : ℕ) :
    (aspectRatio logoW logoH : ℚ) = if 0 < logoW then (logoH : ℚ) / logoW else 1 := by
  rw [aspectRatio]
  split
  · rw [Rat.mkRat_eq_divInt, Rat.divInt_eq_div]
    push_cast
    rfl
  · rfl

theorem aspectRatio_nonneg (logoW logoH : ℕ) : 0 ≤ aspectRatio logoW logoH := by
  rw [aspectRatio_cast]
  split
  · positivity
  · norm_num

theorem pyInt_intMulRat {a : ℤ} {q : ℚ} (ha : 0 ≤ a) (hq : 0 ≤ q) :
    pyInt (intMulRat a q) = ⌊(a : ℚ) * q⌋ := by
  have h : (0 : ℚ) ≤ (a : ℚ) * q :=
    mul_nonneg (by exact_mod_cast ha) hq
  rw [pyInt_eq_floor (by rw [intMulRat_cast]; exact h), intMulRat_cast]

/-- C1 (counterexample): the spec computes the target width with `round`, but the
source truncates with `int()`. For a 10-px-wide product at scale 3/20 the exact
product is 3/2: the source gets width `max 1 (int 1.5) = 1`, the spec's formula
gets `max 1 (round 1.5) = 2`, so the placements differ. -/
theorem logoPlacement_round_counterexample :
    logoPlacement 10 800 200 100 (mkRat 3 20) 30 ≠
      claimLogoPlacement 10 800 200 100 (mkRat 3 20) 30 := by
  intro h
  have h1 : (logoPlacement 10 800 200 100 (mkRat 3 20) 30).targetWidth = 1 := by decide
  have h2 : (claimLogoPlacement 10 800 200 100 (mkRat 3 20) 30).targetWidth = 2 := by
    simp only [claimLogoPlacement, Rat.mkRat_eq_divInt, Rat.divInt_eq_div]
    norm_num [round_eq]
  rw [h, h2] at h1
  exact absurd h1 (by norm_num)

/-- C1 (amended): for every product image of width `W` and height `H`, logo of
size `(lw, lh)`, scale `s ≥ 0` and padding `p`, the logo placement computes
`target_w = max 1 ⌊W·s⌋` (truncation, not rounding), `target_h = max 1
⌊target_w · lh/lw⌋` with aspect-ratio fallback `1` when `lw = 0`, and places the
logo at exactly `(W − target_w − p, H − target_h − p)` with no clamping to
non-negative; for a 200×100 logo, a 1000×800 product, `s = 0.15`, `p = 30` the
result is `target_w = 150`, `target_h = 75`, origin `(820, 695)`. -/
theorem logoPlacement_floor_spec (prodW prodH logoW logoH : ℕ) (s : ℚ)
    (padding : ℤ) (hs : 0 ≤ s) :
    logoPlacement prodW prodH logoW logoH s padding =
      { targetWidth := max 1 ⌊(prodW : ℚ) * s⌋
        targetHeight := max 1 ⌊(max 1 ⌊(prodW : ℚ) * s⌋ : ℤ) *
          (if 0 < logoW then (logoH : ℚ) / logoW else 1)⌋
        x := (prodW : ℤ) - max 1 ⌊(prodW : ℚ) * s⌋ - padding
        y := (prodH : ℤ) - max 1 ⌊(max 1 ⌊(prodW : ℚ) * s⌋ : ℤ) *
          (if 0 < logoW then (logoH : ℚ) / logoW else 1)⌋ - padding } ∧
    logoPlacement 1000 800 200 100 (mkRat 3 20) 30 = ⟨150, 75, 820, 695⟩ := by
  constructor
  · have h1 : pyInt (intMulRat prodW s) = ⌊(prodW : ℚ) * s⌋ :=
      pyInt_intMulRat (Int.ofNat_nonneg _) hs
    have h2 : pyInt (intMulRat (max 1 (pyInt (intMulRat prodW s)))
        (aspectRatio logoW logoH)) =
        ⌊(max 1 ⌊(prodW : ℚ) * s⌋ : ℤ) *
          (if 0 < logoW then (logoH : ℚ) / logoW else 1)⌋ := by
      rw [pyInt_intMulRat (le_trans zero_le_one (le_max_left _ _))
        (aspectRatio_nonneg _ _), aspectRatio_cast, h1]
    rw [h1] at h2
    simp only [logoPlacement, h1, h2]
  · decide

/-- A concrete instantiation of `logoPlacement_floor_spec` (scale 3/20 is
non-negative), fixing every quantifier. -/
theorem logoPlacement_floor_spec_witness :
    logoPlacement 1000 800 200 100 (mkRat 3 20) 30 = ⟨150, 75, 820, 695⟩ :=
  (logoPlacement_floor_spec 1000 800 200 100 (mkRat 3 20) 30 (by decide)).2

/-- C2: for every product-image width `W > 0` and logo scale `0 < s ≤ 1`, the
computed logo target width and target height are both at least 1 pixel — even
when `W·s` truncates to 0 and even when the logo's own width is 0 (both `max 1`
clamps of the source fire unconditionally). -/
theorem logoPlacement_target_ge_one (prodW prodH logoW logoH : ℕ) (s : ℚ)
    (padding : ℤ) (hW : 0 < prodW) (hs0 : 0 < s) (hs1 : s ≤ 1) :
    1 ≤ (logoPlacement prodW prodH logoW logoH s padding).targetWidth ∧
    1 ≤ (logoPlacement prodW prodH logoW logoH s padding).targetHeight := by
  simp only [logoPlacement]
  exact ⟨le_max_left _ _, le_max_left _ _⟩

/-- `logoPlacement_target_ge_one` at `W = 1`, `s = 1/2`, logo size 0×0: the
scaled width 1/2 truncates to 0 and the logo width is 0, yet both targets are
still ≥ 1. -/
theorem logoPlacement_target_ge_one_witness :
    1 ≤ (logoPlacement 1 1 0 0 (mkRat 1 2) 30).targetWidth ∧
    1 ≤ (logoPlacement 1 1 0 0 (mkRat 1 2) 30).targetHeight :=
  logoPlacement_target_ge_one 1 1 0 0 (mkRat 1 2) 30 (by decide) (by decide)
    (by decide)

/-! ## Repeating text watermark — `watermark_app.py` lines 340–352

```
if text_width > 0 and text_height > 0:
    if position == "Top": text_y = padding
    elif position == "Middle": text_y = (product_img.height - text_height) // 2
    else: text_y = product_img.height - text_height - padding # Bottom

    step = text_width + horizontal_spacing; step = max(1, step)
    start_x = -(text_width % step if step > 0 else 0)

    for x_text in range(start_x, product_img.width + text_width, step):
        draw.text((x_text, text_y), cleaned_brand_name, ...)
```
Python `//` and `%` here always see a positive divisor, where they agree with
`Int.ediv` / `Int.emod` (Lean's `/` and `%` on `ℤ`). -/

/-- The sidebar's watermark-text position choice. -/
inductive TextPosition
  | top
  | middle
  | bottom
deriving DecidableEq

/-- Vertical anchor of the text row, lines 342–344. -/
def textAnchorY (position : TextPosition) (canvasH textH padding : ℤ) : ℤ :=
  match position with
  | .top => padding
  | .middle => (canvasH - textH) / 2
  | .bottom => canvasH - textH - padding

/-- Python `range(start, stop, step)` for a positive `step`: the
`⌈(stop−start)/step⌉` values `start, start+step, …` below `stop`.  The source
only ever calls it with `step ≥ 1`; a non-positive step yields `[]` here. -/
def pyRange (start stop step : ℤ) : List ℤ :=
  if 0 < step then
    (List.range ((stop - start + step - 1) / step).toNat).map
      fun k : ℕ => start + (k : ℤ) * step
  else []

/-- Line 347: `step = text_width + horizontal_spacing; step = max(1, step)`. -/
def tileStep (textW spacing : ℤ) : ℤ := max 1 (textW + spacing)

/-- Line 348: `start_x = -(text_width % step if step > 0 else 0)`. -/
def tileStartX (textW spacing : ℤ) : ℤ :=
  -(if 0 < tileStep textW spacing then textW % tileStep textW spacing else 0)

/-- Line 351: the loop `range(start_x, product_img.width + text_width, step)`. -/
def tilePositions (textW spacing canvasW : ℤ) : List ℤ :=
  pyRange (tileStartX textW spacing) (canvasW + textW) (tileStep textW spacing)

theorem tileStep_pos (textW spacing : ℤ) : 0 < tileStep textW spacing :=
  lt_of_lt_of_le zero_lt_one (le_max_left _ _)

theorem tileStartX_nonpos (textW spacing : ℤ) : tileStartX textW spacing ≤ 0 := by
  rw [tileStartX, if_pos (tileStep_pos textW spacing)]
  exact neg_nonpos.mpr (Int.emod_nonneg _ (ne_of_gt (tileStep_pos textW spacing)))

/-- Every abscissa between `start` and `stop` lies within `step` of some member
of `pyRange start stop step`. -/
theorem pyRange_covers {start stop step x : ℤ} (hstep : 0 < step)
    (hx1 : start ≤ x) (hx2 : x < stop) :
    ∃ p ∈ pyRange start stop step, p ≤ x ∧ x < p + step := by
  have hq0 : 0 ≤ (x - start) / step := Int.ediv_nonneg (by linarith) (le_of_lt hstep)
  have hkey : step * ((x - start) / step) + (x - start) % step = x - start :=
    Int.ediv_add_emod (x - start) step
  have hr0 : 0 ≤ (x - start) % step := Int.emod_nonneg _ (ne_of_gt hstep)
  have hr1 : (x - start) % step < step := Int.emod_lt_of_pos _ hstep
  have hcomm : step * ((x - start) / step) = ((x - start) / step) * step :=
    mul_comm _ _
  have hple : start + ((x - start) / step) * step ≤ x := by linarith
  have hplt : x < start + ((x - start) / step) * step + step := by linarith
  have hlt : ((x - start) / step) * step < stop - start := by linarith
  have h1 : (x - start) / step ≤ (stop - start - 1) / step :=
    (Int.le_ediv_iff_mul_le hstep).mpr (by linarith)
  have h2 : (stop - start + step - 1) / step = (stop - start - 1) / step + 1 := by
    have h3 := Int.add_mul_ediv_right (stop - start - 1) 1 (ne_of_gt hstep)
    rw [one_mul] at h3
    rw [show stop - start + step - 1 = stop - start - 1 + step by ring, h3]
  have hk : ((x - start) / step).toNat <
      ((stop - start + step - 1) / step).toNat := by
    rw [Int.lt_toNat, Int.toNat_of_nonneg hq0, h2]
    exact lt_of_le_of_lt h1 (lt_add_one _)
  refine ⟨start + ((x - start) / step) * step, ?_, hple, hplt⟩
  simp only [pyRange, if_pos hstep, List.mem_map]
  exact ⟨((x - start) / step).toNat, List.mem_range.mpr hk,
    by rw [Int.toNat_of_nonneg hq0]⟩

/-- C3 (counterexample): with text width 120, spacing 50 and canvas width 1000
(the spec's own end-to-end numbers), the tile positions are −120, 50, 220, …:
the first glyph run covers x ∈ [−120, 0) and ends exactly at the canvas edge,
so no tile's glyph run covers the abscissa x = 0, contradicting the claimed
edge coverage. -/
theorem tiling_coverage_counterexample :
    ¬ ∃ p ∈ tilePositions 120 50 1000, p ≤ 0 ∧ 0 < p + 120 := by decide

/-- C3 (amended): for non-degenerate text, the text row's vertical anchor is
`padding` for Top, `(canvas_height − text_height) / 2` for Middle and
`canvas_height − text_height − padding` for Bottom; horizontal tile positions
start at `−(text_width mod step)` and advance by `step` up to `canvas_width`
plus one extra `text_width`; the starting position is ≤ 0 and every canvas
abscissa `0 ≤ x < Cw` lies within `step` of the tile position preceding it, so
the tile pattern spans the whole canvas with inter-tile gaps never exceeding
the horizontal spacing — but the pixel at x = 0 itself need not be covered by
any glyph run: when spacing > 0 the first run ends exactly at x = 0. -/
theorem textTiling_spec (canvasW canvasH textW textH spacing padding : ℤ)
    (hw : 0 < textW) :
    textAnchorY .top canvasH textH padding = padding ∧
    textAnchorY .middle canvasH textH padding = (canvasH - textH) / 2 ∧
    textAnchorY .bottom canvasH textH padding = canvasH - textH - padding ∧
    tileStartX textW spacing = -(textW % tileStep textW spacing) ∧
    tileStartX textW spacing ≤ 0 ∧
    tilePositions textW spacing canvasW =
      pyRange (tileStartX textW spacing) (canvasW + textW) (tileStep textW spacing) ∧
    (∀ x : ℤ, 0 ≤ x → x < canvasW →
      ∃ p ∈ tilePositions textW spacing canvasW,
        p ≤ x ∧ x < p + tileStep textW spacing) := by
  refine ⟨rfl, rfl, rfl, by rw [tileStartX, if_pos (tileStep_pos textW spacing)],
    tileStartX_nonpos textW spacing, rfl, fun x hx0 hxW => ?_⟩
  exact pyRange_covers (tileStep_pos textW spacing)
    (le_trans (tileStartX_nonpos textW spacing) hx0) (by linarith)

/-- `textTiling_spec` instantiated at the spec's end-to-end numbers (text width
120 > 0, spacing 50, canvas width 1000), and its coverage conjunct evaluated at
the concrete abscissa x = 35: the tile position −120 satisfies
−120 ≤ 35 < −120 + 170 = 50. -/
theorem textTiling_spec_witness :
    ∃ p ∈ tilePositions 120 50 1000, p ≤ 35 ∧ 35 < p + tileStep 120 50 :=
  (textTiling_spec 1000 800 120 40 50 30 (by decide)).2.2.2.2.2.2 35
    (by decide) (by decide)

/-- C9: for every text width and horizontal spacing the tiling step
`max(1, text_width + spacing)` is at least 1, and the loop over horizontal
positions strictly advances and terminates: the position list is strictly
increasing and has exactly `⌈(stop − start)/step⌉` elements. -/
theorem tileStep_ge_one_and_terminates (textW spacing canvasW : ℤ) :
    1 ≤ tileStep textW spacing ∧
    (tilePositions textW spacing canvasW).Pairwise (· < ·) ∧
    (tilePositions textW spacing canvasW).length =
      ((canvasW + textW - tileStartX textW spacing + tileStep textW spacing - 1) /
        tileStep textW spacing).toNat := by
  refine ⟨le_max_left _ _, ?_, ?_⟩
  · rw [tilePositions, pyRange, if_pos (tileStep_pos textW spacing),
      List.pairwise_map]
    refine (List.pairwise_lt_range _).imp fun h => ?_
    exact add_lt_add_left (mul_lt_mul_of_pos_right (by exact_mod_cast h)
      (tileStep_pos textW spacing)) _
  · rw [tilePositions, pyRange, if_pos (tileStep_pos textW spacing),
      List.length_map, List.length_range]

/-! ## The per-image compositor — lines 297–375

Per image the source builds a fully transparent layer, pastes an optional
backdrop rectangle (offset by `DEFAULT_BACKDROP_OFFSET = (2, 2)`), pastes the
resized logo, optionally draws the tiled text, and alpha-composites the layer
over the product image.  We embed the layer construction as the list of drawing
operations the source performs, in order; a pixel-level rasteriser is an
arbitrary interpretation folded over that list, so equal op lists give
pixel-identical composites under every rasteriser. -/

/-- One drawing operation performed on the transparent watermark layer. -/
inductive DrawOp
  | pasteBackdrop (x y w h : ℤ)
  | pasteLogo (x y w h : ℤ)
  | drawText (x y : ℤ) (text : List Char)
deriving DecidableEq

/-- Python `str.strip()` with its default argument: drop leading and trailing
whitespace. -/
def pyStrip (s : List Char) : List Char :=
  ((s.dropWhile Char.isWhitespace).reverse.dropWhile Char.isWhitespace).reverse

/-- Lines 304–330: the backdrop (when enabled) and logo paste operations. -/
def logoOps (prodW prodH logoW logoH : ℕ) (logoScale : ℚ) (padding : ℤ)
    (addBackdrop : Bool) : List DrawOp :=
  let pl := logoPlacement prodW prodH logoW logoH logoScale padding
  (if addBackdrop then
    [DrawOp.pasteBackdrop (pl.x + 2) (pl.y + 2) pl.targetWidth pl.targetHeight]
  else []) ++ [DrawOp.pasteLogo pl.x pl.y pl.targetWidth pl.targetHeight]

/-- Lines 333–363: the guarded repeating-text block.  `textW`/`textH` are the
measured `textbbox` dimensions of the stripped brand name; `raisesAt = some i`
models `draw.text` raising at the i-th tile (the `except` arms then record one
error and keep whatever was already drawn), `none` models no exception.  The
block is entered only when the stripped brand name is non-empty and a font
object exists, and draws only when both measured dimensions are positive. -/
def textStep (brand : List Char) (hasFont : Bool) (textW textH : ℤ)
    (pos : TextPosition) (spacing padding canvasW canvasH : ℤ)
    (raisesAt : Option ℕ) : List DrawOp × ℕ :=
  if pyStrip brand ≠ [] ∧ hasFont then
    if 0 < textW ∧ 0 < textH then
      let ops := (tilePositions textW spacing canvasW).map
        fun x => DrawOp.drawText x (textAnchorY pos canvasH textH padding)
          (pyStrip brand)
      match raisesAt with
      | some i => (ops.take i, 1)
      | none => (ops, 0)
    else ([], 0)
  else ([], 0)

/-- Lines 301–363: the full op list drawn on the watermark layer for one image,
paired with the error-counter increment contributed by the text block. -/
def watermarkOps (prodW prodH logoW logoH : ℕ) (logoScale : ℚ) (padding : ℤ)
    (addBackdrop : Bool) (brand : List Char) (hasFont : Bool) (textW textH : ℤ)
    (pos : TextPosition) (spacing : ℤ) (raisesAt : Option ℕ) :
    List DrawOp × ℕ :=
  let t := textStep brand hasFont textW textH pos spacing padding prodW prodH
    raisesAt
  (logoOps prodW prodH logoW logoH logoScale padding addBackdrop ++ t.1, t.2)

/-- The same pipeline with the text-drawing step (lines 332–363) removed
entirely; compared against `watermarkOps` for claim C4. -/
def watermarkOpsNoText (prodW prodH logoW logoH : ℕ) (logoScale : ℚ)
    (padding : ℤ) (addBackdrop : Bool) : List DrawOp :=
  logoOps prodW prodH logoW logoH logoScale padding addBackdrop

/-- An arbitrary pixel-level interpretation of the drawing operations, folded
over the layer in drawing order.  PIL's rasteriser followed by
`Image.alpha_composite` is one such interpretation, so equal op lists give
pixel-for-pixel identical final images. -/
def render {Img : Type} (interp : DrawOp → Img → Img) (ops : List DrawOp)
    (base : Img) : Img :=
  ops.foldl (fun img op => interp op img) base

/-- C4: compositing with an empty brand-name string produces, under every
pixel-level interpretation of the drawing operations — hence pixel for pixel —
the same image as compositing with the text step skipped entirely, with logo
and backdrop still applied, and contributes no error: `"".strip()` is empty, so
the guard on line 334 never enters the text block. -/
theorem emptyBrand_eq_skipText {Img : Type} (interp : DrawOp → Img → Img)
    (base : Img) (prodW prodH logoW logoH : ℕ) (logoScale : ℚ) (padding : ℤ)
    (addBackdrop : Bool) (brand : List Char) (hasFont : Bool) (textW textH : ℤ)
    (pos : TextPosition) (spacing : ℤ) (raisesAt : Option ℕ)
    (hbrand : brand = []) :
    render interp (watermarkOps prodW prodH logoW logoH logoScale padding
      addBackdrop brand hasFont textW textH pos spacing raisesAt).1 base =
      render interp (watermarkOpsNoText prodW prodH logoW logoH logoScale
        padding addBackdrop) base ∧
    (watermarkOps prodW prodH logoW logoH logoScale padding addBackdrop brand
      hasFont textW textH pos spacing raisesAt).2 = 0 := by
  subst hbrand
  have hstrip : pyStrip ([] : List Char) = [] := rfl
  constructor
  · simp [watermarkOps, textStep, hstrip, watermarkOpsNoText]
  · simp [watermarkOps, textStep, hstrip]

/-- `emptyBrand_eq_skipText` at a concrete interpretation (counting ops over
`ℕ`) and the spec's end-to-end geometry, brand name `""`. -/
theorem emptyBrand_eq_skipText_witness :
    render (fun (_ : DrawOp) (n : ℕ) => n + 1)
      (watermarkOps 1000 800 200 100 (mkRat 3 20) 30 true [] true 120 40
        TextPosition.middle 50 none).1 0 =
      render (fun (_ : DrawOp) (n : ℕ) => n + 1)
        (watermarkOpsNoText 1000 800 200 100 (mkRat 3 20) 30 true) 0 ∧
    (watermarkOps 1000 800 200 100 (mkRat 3 20) 30 true [] true 120 40
      TextPosition.middle 50 none).2 = 0 :=
  emptyBrand_eq_skipText _ 0 1000 800 200 100 (mkRat 3 20) 30 true [] true
    120 40 TextPosition.middle 50 none rfl

/-- C7: if the measured bounding box of the watermark text has width ≤ 0 or
height ≤ 0, the text step is a complete no-op: no text operation is drawn, the
exception arms are never reached (the result ignores `raisesAt`), and the error
counter is not incremented. -/
theorem degenerateText_noop (brand : List Char) (hasFont : Bool)
    (textW textH : ℤ) (pos : TextPosition)
    (spacing padding canvasW canvasH : ℤ) (raisesAt : Option ℕ)
    (h : textW ≤ 0 ∨ textH ≤ 0) :
    textStep brand hasFont textW textH pos spacing padding canvasW canvasH
      raisesAt = ([], 0) := by
  have hguard : ¬ (0 < textW ∧ 0 < textH) := by
    rcases h with h | h <;> intro hc <;> rcases hc with ⟨h1, h2⟩ <;> omega
  rw [textStep]
  by_cases h1 : pyStrip brand ≠ [] ∧ hasFont = true
  · rw [if_pos h1, if_neg hguard]
  · rw [if_neg h1]

/-- `degenerateText_noop` for the brand name `"ACME"` whose measured box came
back 0×12 (degenerate width), with an exception outcome armed: still a no-op. -/
theorem degenerateText_noop_witness :
    textStep ['A', 'C', 'M', 'E'] true 0 12 TextPosition.bottom 50 30 1000 800
      (some 2) = ([], 0) :=
  degenerateText_noop ['A', 'C', 'M', 'E'] true 0 12 TextPosition.bottom 50 30
    1000 800 (some 2) (Or.inl (by decide))

/-! ## The batch loop — lines 287–394

```
processed_count = 0; error_count = 0; processed_files = []
for i, product_path in enumerate(files_to_process_paths):
    try:
        ... open, draw logo ...
        try:
            ... measure and draw text ...
        except AttributeError as e_text:
            ...; error_count += 1        # line 360: image processing continues
        except Exception as text_err:
            ...; error_count += 1        # line 363: image processing continues
        final_image.save(out_path, "PNG")
        processed_files.append(out_path); processed_count += 1
    except Image.UnidentifiedImageError: ...; error_count += 1
    except Exception as img_err: ...; error_count += 1
status_text.text(f"... {processed_count} images processed, {error_count} errors.")
if not processed_files:
    st.error("🚫 No images were processed successfully."); st.stop()
```
Note the two layers of `except`: a text-drawing failure increments the shared
`error_count` but lets the image go on to be saved and counted as processed,
while an outer decode/draw/save failure increments `error_count` and skips the
image.  One image can therefore move both counters, or even contribute two
errors (text failure followed by a save failure). -/

/-- Abstract outcome of the fallible PIL work on one source image:
`textError` says whether an inner text-block `except` arm (line 360 or 363)
fired — adding one error while processing of the image continues — and `saved`
whether the outer `try` body then ran to completion, appending the image to
`processed_files`; `saved = false` means an outer `except` arm (line 378 or
381) caught a decode, draw or save failure, adding one more error. -/
structure ImageOutcome where
  textError : Bool
  saved : Bool
deriving DecidableEq

/-- The `for` loop with its running `processed_count`, `error_count` and
`processed_files` accumulators: the text block may add one error with the
image still saved and counted as processed; an outer failure adds one error
and skips the append; either way the loop continues with the next image. -/
def batchLoop (pc ec : ℕ) (pfiles : List ImageOutcome) :
    List ImageOutcome → ℕ × ℕ × List ImageOutcome
  | [] => (pc, ec, pfiles)
  | o :: rest =>
    let ec' := if o.textError then ec + 1 else ec
    if o.saved then batchLoop (pc + 1) ec' (pfiles ++ [o]) rest
    else batchLoop pc (ec' + 1) pfiles rest

/-- The whole batch run, started with zeroed counters. -/
def runBatch (outcomes : List ImageOutcome) : ℕ × ℕ × List ImageOutcome :=
  batchLoop 0 0 [] outcomes

/-- Line 392: `if not processed_files:` — total failure is declared exactly
when the processed-files list ended up empty. -/
def declaresTotalFailure (outcomes : List ImageOutcome) : Bool :=
  (runBatch outcomes).2.2.isEmpty

theorem batchLoop_spec (l : List ImageOutcome) (pc ec : ℕ)
    (pfiles : List ImageOutcome) :
    batchLoop pc ec pfiles l =
      (pc + (l.filter (·.saved)).length,
       ec + (l.filter (·.textError)).length +
         (l.filter (fun o => !o.saved)).length,
       pfiles ++ l.filter (·.saved)) := by
  induction l generalizing pc ec pfiles with
  | nil => simp [batchLoop]
  | cons o rest ih =>
    rcases o with ⟨te, sv⟩
    cases te <;> cases sv <;> simp [batchLoop, ih] <;> omega

theorem runBatch_eq (l : List ImageOutcome) :
    runBatch l =
      ((l.filter (·.saved)).length,
       (l.filter (·.textError)).length +
         (l.filter (fun o => !o.saved)).length,
       l.filter (·.saved)) := by
  rw [runBatch, batchLoop_spec]
  simp

/-- C5: for every batch, a decode, draw or save failure on one source image is
caught, increments the error counter and does not abort processing of the
remaining images: the processed count is the number of saved images; the error
count is one per inner text-drawing failure plus one per outer failure;
inserting an outer-failing image anywhere leaves the processed count unchanged
and adds exactly one error; inserting an image whose text drawing failed but
which still saved (lines 360/363) adds one to both counters; both counts are
reported at the end, and the run declares total failure exactly when zero
images succeeded. -/
theorem runBatch_spec (outcomes : List ImageOutcome) :
    (runBatch outcomes).1 = (outcomes.filter (·.saved)).length ∧
    (runBatch outcomes).2.1 =
      (outcomes.filter (·.textError)).length +
        (outcomes.filter (fun o => !o.saved)).length ∧
    (∀ pre post : List ImageOutcome,
      (runBatch (pre ++ ⟨false, false⟩ :: post)).1 =
        (runBatch (pre ++ post)).1 ∧
      (runBatch (pre ++ ⟨false, false⟩ :: post)).2.1 =
        (runBatch (pre ++ post)).2.1 + 1) ∧
    (∀ pre post : List ImageOutcome,
      (runBatch (pre ++ ⟨true, true⟩ :: post)).1 =
        (runBatch (pre ++ post)).1 + 1 ∧
      (runBatch (pre ++ ⟨true, true⟩ :: post)).2.1 =
        (runBatch (pre ++ post)).2.1 + 1) ∧
    (declaresTotalFailure outcomes = true ↔ (runBatch outcomes).1 = 0) := by
  refine ⟨by rw [runBatch_eq], by rw [runBatch_eq], ?_, ?_, ?_⟩
  · intro pre post
    constructor <;> simp [runBatch_eq, List.filter_append] <;> omega
  · intro pre post
    constructor <;> simp [runBatch_eq, List.filter_append] <;> omega
  · rw [declaresTotalFailure, runBatch_eq]
    simp [List.isEmpty_iff, List.length_eq_zero]

/-! ## Python string primitives used by the file handling -/

/-- `str.lower` on one character; ASCII case folding, which is all the source
compares against (its extensions and markers are pure ASCII). -/
def pyLowerChar (c : Char) : Char :=
  if 'A' ≤ c ∧ c ≤ 'Z' then Char.ofNat (c.toNat + 32) else c

/-- Python `str.lower()`. -/
def pyLower (s : List Char) : List Char := s.map pyLowerChar

/-- Python `str.endswith(suffix)`. -/
def strEndsWith (s suffix : List Char) : Bool := suffix.isSuffixOf s

/-- Python `needle in hay` on strings: substring containment. -/
def strContains (needle : List Char) : List Char → Bool
  | [] => needle.isEmpty
  | c :: rest => needle.isPrefixOf (c :: rest) || strContains needle rest

/-- `os.path.basename`: the part of the path after the last `/`. -/
def basename (path : List Char) : List Char :=
  (path.reverse.takeWhile (· ≠ '/')).reverse

/-- Python `s.split(sep)[-1]`: the part of the string after the last
separator (the whole string when the separator does not occur). -/
def splitLast (sep : Char) (s : List Char) : List Char :=
  (s.reverse.takeWhile (· ≠ sep)).reverse

/-! ## Selecting the files to process — lines 251–257

```
for root, _, files in os.walk(PRODUCTS_DIR):
    for f in files:
         file_path_lower = os.path.join(root, f).lower()
         if file_path_lower.endswith(tuple(f".{ext}" for ext in ALLOWED_IMAGE_TYPES)) \
            and not os.path.basename(f).startswith('.') \
            and '__macosx' not in file_path_lower:
             files_to_process_paths.append(full_path)
```
(`f` is a bare file name, so `os.path.basename(f)` is the basename of the full
path.) -/

/-- The filter of lines 254–255, on a full path. -/
def shouldProcess (path : List Char) : Bool :=
  (strEndsWith (pyLower path) ".png".data ||
    strEndsWith (pyLower path) ".jpg".data ||
    strEndsWith (pyLower path) ".jpeg".data) &&
  !(['.'].isPrefixOf (basename path)) &&
  !(strContains "__macosx".data (pyLower path))

/-- `files_to_process_paths`: the walked file paths that pass the filter. -/
def selectFiles (paths : List (List Char)) : List (List Char) :=
  paths.filter shouldProcess

/-- C10: exactly those files are selected whose lowercased path ends in
`.png`/`.jpg`/`.jpeg`, whose basename does not start with a dot and whose
lowercased path does not contain `__macosx`; an excluded file (hidden file,
macOS ZIP metadata entry) is silently dropped from the batch, and since the
counters are produced by the loop over the selected batch alone, adding an
excluded file to the walk leaves the whole batch result — processed count,
error count and processed files — unchanged. -/
theorem selectFiles_spec (paths : List (List Char)) (p : List Char)
    (outcome : List Char → ImageOutcome) :
    (p ∈ selectFiles paths ↔
      p ∈ paths ∧
      (strEndsWith (pyLower p) ".png".data = true ∨
        strEndsWith (pyLower p) ".jpg".data = true ∨
        strEndsWith (pyLower p) ".jpeg".data = true) ∧
      ['.'].isPrefixOf (basename p) = false ∧
      strContains "__macosx".data (pyLower p) = false) ∧
    (∀ q : List Char, shouldProcess q = false →
      runBatch ((selectFiles (paths ++ [q])).map outcome) =
        runBatch ((selectFiles paths).map outcome)) := by
  constructor
  · rw [selectFiles, List.mem_filter, shouldProcess]
    simp only [Bool.and_eq_true, Bool.or_eq_true, Bool.not_eq_true']
    tauto
  · intro q hq
    have hsel : selectFiles (paths ++ [q]) = selectFiles paths := by
      rw [selectFiles, selectFiles, List.filter_append]
      simp [hq]
    rw [hsel]

/-- `selectFiles_spec` on a five-path walk: the kept `dir/photo.JPG` satisfies
exactly the filter conditions, and appending the hidden file `dir/.more.png`
to the walk changes nothing about the batch result. -/
theorem selectFiles_spec_witness :
    ("dir/photo.JPG".data ∈ selectFiles ["dir/photo.JPG".data,
        "dir/__MACOSX/photo.png".data, "dir/.hidden.png".data,
        "dir/readme.txt".data, "dir/b.jpeg".data] ↔
      "dir/photo.JPG".data ∈ ["dir/photo.JPG".data,
        "dir/__MACOSX/photo.png".data, "dir/.hidden.png".data,
        "dir/readme.txt".data, "dir/b.jpeg".data] ∧
      (strEndsWith (pyLower "dir/photo.JPG".data) ".png".data = true ∨
        strEndsWith (pyLower "dir/photo.JPG".data) ".jpg".data = true ∨
        strEndsWith (pyLower "dir/photo.JPG".data) ".jpeg".data = true) ∧
      ['.'].isPrefixOf (basename "dir/photo.JPG".data) = false ∧
      strContains "__macosx".data (pyLower "dir/photo.JPG".data) = false) ∧
    runBatch ((selectFiles (["dir/photo.JPG".data,
        "dir/__MACOSX/photo.png".data, "dir/.hidden.png".data,
        "dir/readme.txt".data, "dir/b.jpeg".data] ++
          ["dir/.more.png".data])).map fun _ => (⟨false, true⟩ : ImageOutcome)) =
      runBatch ((selectFiles ["dir/photo.JPG".data,
        "dir/__MACOSX/photo.png".data, "dir/.hidden.png".data,
        "dir/readme.txt".data, "dir/b.jpeg".data]).map
          fun _ => (⟨false, true⟩ : ImageOutcome)) :=
  ⟨(selectFiles_spec ["dir/photo.JPG".data, "dir/__MACOSX/photo.png".data,
      "dir/.hidden.png".data, "dir/readme.txt".data, "dir/b.jpeg".data]
      "dir/photo.JPG".data (fun _ => (⟨false, true⟩ : ImageOutcome))).1,
    (selectFiles_spec ["dir/photo.JPG".data, "dir/__MACOSX/photo.png".data,
      "dir/.hidden.png".data, "dir/readme.txt".data, "dir/b.jpeg".data]
      "dir/photo.JPG".data (fun _ => (⟨false, true⟩ : ImageOutcome))).2
      "dir/.more.png".data (by decide)⟩

/-! ## Recognising uploaded files — `prepare_input_images`, lines 90–132

```
is_zip = False
if uploaded_file.type in KNOWN_ZIP_MIMES:
    is_zip = True
elif uploaded_file.name and uploaded_file.name.lower().endswith(".zip"):
    is_zip = True
if is_zip:
    ... extract (BadZipFile / extraction errors set any_processing_error) ...
elif uploaded_file.type and uploaded_file.type.split('/')[-1] in ALLOWED_IMAGE_TYPES:
    ... save (save errors set any_processing_error) ...
else:
    st.warning("⚠️ Skipping unsupported file type: ...")
```
-/

/-- `KNOWN_ZIP_MIMES`, line 27. -/
def KNOWN_ZIP_MIMES : List (List Char) :=
  ["application/zip".data, "application/x-zip".data,
    "application/x-zip-compressed".data]

/-- `ALLOWED_IMAGE_TYPES`, line 24. -/
def ALLOWED_IMAGE_TYPES : List (List Char) :=
  ["png".data, "jpg".data, "jpeg".data]

/-- How one uploaded file is treated by `prepare_input_images`. -/
inductive UploadKind
  | zipArchive
  | image
  | skipped
deriving DecidableEq

/-- Lines 91–132: ZIP by known MIME type first, `.zip` extension
(case-insensitive, on a non-empty name) second; otherwise an image exactly
when the declared content-type's last `/`-component is an allowed image type;
everything else is skipped with a warning. -/
def classifyUpload (name mime : List Char) : UploadKind :=
  if KNOWN_ZIP_MIMES.contains mime then .zipArchive
  else if !name.isEmpty && strEndsWith (pyLower name) ".zip".data then .zipArchive
  else if !mime.isEmpty && ALLOWED_IMAGE_TYPES.contains (splitLast '/' mime) then
    .image
  else .skipped

/-- The recognition rule as the specification sentence words it: kind decided
by the declared content-type first and by the case-insensitive filename
extension second, against the allow-list `.zip`, `.png`, `.jpg`, `.jpeg`;
kept only to compare against `classifyUpload`. -/
def claimClassifyUpload (name mime : List Char) : UploadKind :=
  if KNOWN_ZIP_MIMES.contains mime then .zipArchive
  else if !mime.isEmpty && ALLOWED_IMAGE_TYPES.contains (splitLast '/' mime) then
    .image
  else if strEndsWith (pyLower name) ".zip".data then .zipArchive
  else if strEndsWith (pyLower name) ".png".data ||
      strEndsWith (pyLower name) ".jpg".data ||
      strEndsWith (pyLower name) ".jpeg".data then .image
  else .skipped

/-- Whether handling one uploaded file sets `any_processing_error`: extraction
failures for a ZIP, save failures for an image — and never for a skipped file,
which only gets a warning (lines 128–132). -/
def uploadSetsErrorFlag (name mime : List Char) (zipOk saveOk : Bool) : Bool :=
  match classifyUpload name mime with
  | .zipArchive => !zipOk
  | .image => !saveOk
  | .skipped => false

/-- C8 (counterexample): a PNG image uploaded with an unrecognised declared
content-type (`application/octet-stream`) is skipped by the source — the
extension fallback exists only for ZIPs, images are recognised by content-type
alone — while the claimed rule (extension second, against the allow-list that
includes `.png`) would recognise it as an image. -/
theorem classifyUpload_counterexample :
    classifyUpload "photo.png".data "application/octet-stream".data =
        UploadKind.skipped ∧
      claimClassifyUpload "photo.png".data "application/octet-stream".data =
        UploadKind.image := by decide

/-- C8 (amended): an uploaded file is recognised as a ZIP by its declared
content-type first (`KNOWN_ZIP_MIMES`) and its case-insensitive `.zip`
extension second; it is recognised as an image solely by its declared
content-type, when the part after the last `/` is in the allow-list
png/jpg/jpeg — the filename extension is never consulted for images; a file
matching neither is skipped with a warning and never sets the run's
processing-error flag. -/
theorem classifyUpload_spec (name mime : List Char) (zipOk saveOk : Bool) :
    (classifyUpload name mime = UploadKind.zipArchive ↔
      KNOWN_ZIP_MIMES.contains mime = true ∨
        (!name.isEmpty && strEndsWith (pyLower name) ".zip".data) = true) ∧
    (classifyUpload name mime = UploadKind.image ↔
      KNOWN_ZIP_MIMES.contains mime = false ∧
        (!name.isEmpty && strEndsWith (pyLower name) ".zip".data) = false ∧
        (!mime.isEmpty && ALLOWED_IMAGE_TYPES.contains (splitLast '/' mime)) =
          true) ∧
    (classifyUpload name mime = UploadKind.skipped →
      uploadSetsErrorFlag name mime zipOk saveOk = false) := by
  rw [classifyUpload, uploadSetsErrorFlag, classifyUpload]
  split_ifs with hz he hi <;> simp_all

/-- `classifyUpload_spec` at the counterexample input: the skipped file sets no
error flag even when both failure switches are armed. -/
theorem classifyUpload_spec_witness :
    uploadSetsErrorFlag "photo.png".data "application/octet-stream".data
      false false = false :=
  (classifyUpload_spec "photo.png".data "application/octet-stream".data
    false false).2.2 (by decide)

/-! ## Resize with letterbox padding — modelled from the spec

The revision under `src/` saves only original-size output; the fixed-size
output profiles and their `resize_with_padding` exist in other revisions of
this repository and are specified in §4.1 of the spec.  The definitions below
are therefore modelled from the spec's words, not from `src/`. -/

/-- An RGBA pixel, channels 0–255. -/
structure Pixel where
  r : ℕ
  g : ℕ
  b : ℕ
  a : ℕ
deriving DecidableEq

/-- A raster image: a size plus a pixel function. -/
structure Raster where
  width : ℕ
  height : ℕ
  pixel : ℕ → ℕ → Pixel

/-- Modelled from the spec: the aspect-ratio-preserving fit of §4.1 — "if
`source_w/source_h > target_w/target_h`, fit to `target_w` and derive height;
otherwise fit to `target_h` and derive width" (the comparison cross-multiplied
over the positive denominators; the derived edge floor-divides). -/
def fittedSize (srcW srcH targetW targetH : ℕ) : ℕ × ℕ :=
  if targetW * srcH < srcW * targetH then
    (targetW, targetW * srcH / srcW)
  else
    (targetH * srcW / srcH, targetH)

/-- Modelled from the spec: the integer-floor centering offsets
`((target_w − new_w) // 2, (target_h − new_h) // 2)` of §4.1. -/
def pasteOrigin (targetW targetH newW newH : ℕ) : ℕ × ℕ :=
  ((targetW - newW) / 2, (targetH - newH) / 2)

/-- Modelled from the spec: compositing the pasted image over the opaque
canvas "using the resized image's own alpha channel as mask": a standard
alpha-weighted blend that keeps the canvas opaque. -/
def pasteOver (fg bgp : Pixel) : Pixel :=
  { r := (fg.r * fg.a + bgp.r * (255 - fg.a)) / 255
    g := (fg.g * fg.a + bgp.g * (255 - fg.a)) / 255
    b := (fg.b * fg.a + bgp.b * (255 - fg.a)) / 255
    a := bgp.a }

/-- Modelled from the spec: `resize_with_padding(image, target_w, target_h,
bg_color)` of §4.1, absent from `src/watermark_app.py`.  `resample` abstracts
the spec's "high-quality (area/lanczos-equivalent) filter": any resampler
producing the fitted raster.  An opaque canvas of exactly the target size is
filled with `bg`, and the fitted image is pasted at the centering offsets. -/
def resize_with_padding (resample : Raster → ℕ → ℕ → Raster) (img : Raster)
    (targetW targetH : ℕ) (bg : ℕ × ℕ × ℕ) : Raster :=
  let fitted := fittedSize img.width img.height targetW targetH
  let resized := resample img fitted.1 fitted.2
  let origin := pasteOrigin targetW targetH fitted.1 fitted.2
  let bgPixel : Pixel := ⟨bg.1, bg.2.1, bg.2.2, 255⟩
  { width := targetW
    height := targetH
    pixel := fun x y =>
      if origin.1 ≤ x ∧ x < origin.1 + fitted.1 ∧
          origin.2 ≤ y ∧ y < origin.2 + fitted.2 then
        pasteOver (resized.pixel (x - origin.1) (y - origin.2)) bgPixel
      else bgPixel }

theorem fittedSize_le (srcW srcH targetW targetH : ℕ) (hsw : 0 < srcW)
    (hsh : 0 < srcH) :
    (fittedSize srcW srcH targetW targetH).1 ≤ targetW ∧
    (fittedSize srcW srcH targetW targetH).2 ≤ targetH := by
  rw [fittedSize]
  split
  · rename_i h
    exact ⟨le_refl _, le_of_lt ((Nat.div_lt_iff_lt_mul hsw).mpr
      (by calc targetW * srcH < srcW * targetH := h
          _ = targetH * srcW := Nat.mul_comm _ _))⟩
  · rename_i h
    rw [Nat.not_lt] at h
    refine ⟨?_, le_refl _⟩
    calc targetH * srcW / srcH ≤ targetW * srcH / srcH :=
          Nat.div_le_div_right (by rw [Nat.mul_comm targetH srcW]; exact h)
      _ = targetW := Nat.mul_div_cancel targetW hsh

/-- C6: `resize_with_padding` always returns an image of exactly the requested
size (with the fitted paste rectangle in bounds) for any source with positive
dimensions, independent of source aspect ratio, and every canvas pixel outside
the pasted rectangle is the flat background color, fully opaque. -/
theorem resize_with_padding_spec (resample : Raster → ℕ → ℕ → Raster)
    (img : Raster) (targetW targetH : ℕ) (bg : ℕ × ℕ × ℕ)
    (hsw : 0 < img.width) (hsh : 0 < img.height) :
    (resize_with_padding resample img targetW targetH bg).width = targetW ∧
    (resize_with_padding resample img targetW targetH bg).height = targetH ∧
    (pasteOrigin targetW targetH (fittedSize img.width img.height targetW
        targetH).1 (fittedSize img.width img.height targetW targetH).2).1 +
      (fittedSize img.width img.height targetW targetH).1 ≤ targetW ∧
    (pasteOrigin targetW targetH (fittedSize img.width img.height targetW
        targetH).1 (fittedSize img.width img.height targetW targetH).2).2 +
      (fittedSize img.width img.height targetW targetH).2 ≤ targetH ∧
    (∀ x y : ℕ,
      ¬ ((pasteOrigin targetW targetH (fittedSize img.width img.height targetW
            targetH).1 (fittedSize img.width img.height targetW targetH).2).1
          ≤ x ∧
        x < (pasteOrigin targetW targetH (fittedSize img.width img.height
            targetW targetH).1 (fittedSize img.width img.height targetW
            targetH).2).1 + (fittedSize img.width img.height targetW
            targetH).1 ∧
        (pasteOrigin targetW targetH (fittedSize img.width img.height targetW
            targetH).1 (fittedSize img.width img.height targetW targetH).2).2
          ≤ y ∧
        y < (pasteOrigin targetW targetH (fittedSize img.width img.height
            targetW targetH).1 (fittedSize img.width img.height targetW
            targetH).2).2 + (fittedSize img.width img.height targetW
            targetH).2) →
      (resize_with_padding resample img targetW targetH bg).pixel x y =
        ⟨bg.1, bg.2.1, bg.2.2, 255⟩) := by
  obtain ⟨hw, hh⟩ := fittedSize_le img.width img.height targetW targetH hsw hsh
  refine ⟨rfl, rfl, ?_, ?_, ?_⟩
  · rw [pasteOrigin]
    have := Nat.div_le_self (targetW -
      (fittedSize img.width img.height targetW targetH).1) 2
    omega
  · rw [pasteOrigin]
    have := Nat.div_le_self (targetH -
      (fittedSize img.width img.height targetW targetH).2) 2
    omega
  · intro x y hout
    rw [resize_with_padding]
    exact if_neg hout

/-- `resize_with_padding_spec` for a 100×50 source letterboxed into a 30×30
canvas with a red background: the output is 30×30 and the pixel at (0, 0) —
above the centered 30×15 paste band, which starts at row 7 — is opaque red. -/
theorem resize_with_padding_spec_witness :
    (resize_with_padding (fun img w h => ⟨w, h, img.pixel⟩)
      ⟨100, 50, fun _ _ => ⟨0, 0, 0, 255⟩⟩ 30 30 (255, 0, 0)).width = 30 ∧
    (resize_with_padding (fun img w h => ⟨w, h, img.pixel⟩)
      ⟨100, 50, fun _ _ => ⟨0, 0, 0, 255⟩⟩ 30 30 (255, 0, 0)).pixel 0 0 =
      ⟨255, 0, 0, 255⟩ := by
  have h := resize_with_padding_spec (fun img w h => ⟨w, h, img.pixel⟩)
    ⟨100, 50, fun _ _ => ⟨0, 0, 0, 255⟩⟩ 30 30 (255, 0, 0)
    (by decide) (by decide)
  exact ⟨h.1, h.2.2.2.2 0 0 (by decide)⟩

end WatermarkApp
